import Mathlib

/-!
Shallow embedding of the SASRec sequential-recommendation model
(src/SASRec-gaudi/model.py) for verification.

Modelling conventions:
* Tensors are total functions out of `Fin` index types with rational entries;
  exact rational arithmetic stands in for floating point.
* The irrational scalar constants and transcendental functions used by torch
  are abstract parameters carried in the weight record:
  `sqrtH` models `hidden_units ** 0.5`, `scaling` models the
  `head_dim ** -0.5` factor that `torch.nn.MultiheadAttention` applies to the
  query projection, `softexp` models `Real.exp` inside softmax and `rsqrt`
  models `(variance + eps) ** -0.5` inside `torch.nn.LayerNorm`.
  All theorems hold for every choice of these parameters.
* `hidden_units = nh * d` where `nh` is `num_heads` and `d` the head
  dimension, reflecting the divisibility requirement of
  `torch.nn.MultiheadAttention`.
* Dropout layers are modelled by a training flag together with an explicit
  multiplicative mask tensor (the mask value encodes the usual
  `bernoulli / (1 - p)` factor); in evaluation mode (`train = false`) the
  mask is ignored and dropout is the identity, exactly as in torch.
-/

namespace SASRecV

/-- A hidden-dimension vector. -/
abbrev Vec (H : ℕ) := Fin H → ℚ

/-- A single sequence of feature vectors (length `L`). -/
abbrev SeqF (L H : ℕ) := Fin L → Vec H

/-- A batch of sequences of feature vectors. -/
abbrev BatchF (B L H : ℕ) := Fin B → Fin L → Vec H

/-- Elementwise dropout: in training mode multiply by the mask value,
in evaluation mode return the input unchanged (`torch.nn.Dropout`). -/
def dropout (train : Bool) (m x : ℚ) : ℚ :=
  if train then m * x else x

/-- Mean over the hidden dimension, as computed by `torch.nn.LayerNorm`. -/
def lnMean {H : ℕ} (x : Vec H) : ℚ :=
  (∑ a, x a) / (H : ℚ)

/-- Biased variance over the hidden dimension (`torch.nn.LayerNorm`). -/
def lnVar {H : ℕ} (x : Vec H) : ℚ :=
  (∑ a, (x a - lnMean x) ^ 2) / (H : ℚ)

/-- Weights of one `torch.nn.LayerNorm(hidden_units)` instance. -/
structure LNW (H : ℕ) where
  gamma : Vec H
  beta : Vec H

/-- `torch.nn.LayerNorm` applied to one position:
`y = gamma * (x - mean) * rsqrt(var) + beta`, where `r` abstracts
`(var + eps) ** -0.5`. -/
def layerNorm {H : ℕ} (r : ℚ → ℚ) (w : LNW H) (x : Vec H) : Vec H :=
  fun a => w.gamma a * ((x a - lnMean x) * r (lnVar x)) + w.beta a

/-- Packed index of head `h`, head-dimension `a` inside the flat hidden
dimension `nh * d`, matching how `torch.nn.MultiheadAttention` reshapes its
packed projection output into heads. -/
def finPair {nh d : ℕ} (h : Fin nh) (a : Fin d) : Fin (nh * d) :=
  ⟨h.1 * d + a.1, by
    calc h.1 * d + a.1 < h.1 * d + d := Nat.add_lt_add_left a.2 _
      _ = (h.1 + 1) * d := by ring
      _ ≤ nh * d := Nat.mul_le_mul_right d h.2⟩

/-- Weights of one `torch.nn.MultiheadAttention(hidden, nh)` instance:
packed input projections (`in_proj_weight`, `in_proj_bias` split into the
query/key/value thirds) and the output projection. -/
structure MHAW (nh d : ℕ) where
  wq : Fin (nh * d) → Fin (nh * d) → ℚ
  bq : Fin (nh * d) → ℚ
  wk : Fin (nh * d) → Fin (nh * d) → ℚ
  bk : Fin (nh * d) → ℚ
  wv : Fin (nh * d) → Fin (nh * d) → ℚ
  bv : Fin (nh * d) → ℚ
  wo : Fin (nh * d) → Fin (nh * d) → ℚ
  bo : Fin (nh * d) → ℚ

/-- Query projection of head `h` at position `i` (already multiplied by the
`head_dim ** -0.5` scaling `sc`, as torch scales `q` after projection). -/
def qProj {L nh d : ℕ} (w : MHAW nh d) (sc : ℚ) (xq : SeqF L (nh * d))
    (h : Fin nh) (i : Fin L) (a : Fin d) : ℚ :=
  sc * ((∑ e, w.wq (finPair h a) e * xq i e) + w.bq (finPair h a))

/-- Key projection of head `h` at position `j`. -/
def kProj {L nh d : ℕ} (w : MHAW nh d) (xk : SeqF L (nh * d))
    (h : Fin nh) (j : Fin L) (a : Fin d) : ℚ :=
  (∑ e, w.wk (finPair h a) e * xk j e) + w.bk (finPair h a)

/-- Value projection of head `h` at position `j`. -/
def vProj {L nh d : ℕ} (w : MHAW nh d) (xv : SeqF L (nh * d))
    (h : Fin nh) (j : Fin L) (a : Fin d) : ℚ :=
  (∑ e, w.wv (finPair h a) e * xv j e) + w.bv (finPair h a)

/-- Raw attention score of head `h` from query position `i` to key position
`j` (the query already carries the scaling factor). -/
def attScore {L nh d : ℕ} (w : MHAW nh d) (sc : ℚ)
    (xq xk : SeqF L (nh * d)) (h : Fin nh) (i j : Fin L) : ℚ :=
  ∑ a, qProj w sc xq h i a * kProj w xk h j a

/-- Softmax over the key axis restricted to unmasked entries: a masked entry
(`mask j = true`, i.e. `attn_mask` forbids it, torch adds `-inf` there)
receives weight `0` and does not contribute to the normalizing sum;
`e` abstracts `Real.exp`. -/
def maskedSoftmax {L : ℕ} (e : ℚ → ℚ) (mask : Fin L → Bool)
    (s : Fin L → ℚ) : Fin L → ℚ :=
  fun j => if mask j then 0
    else e (s j) / (∑ j2, if mask j2 then 0 else e (s j2))

/-- Attention weights of head `h` at query position `i`. -/
def attWeight {L nh d : ℕ} (w : MHAW nh d) (sc : ℚ) (e : ℚ → ℚ)
    (mask : Fin L → Fin L → Bool) (xq xk : SeqF L (nh * d))
    (h : Fin nh) (i : Fin L) : Fin L → ℚ :=
  maskedSoftmax e (mask i) (attScore w sc xq xk h i)

/-- `torch.nn.MultiheadAttention` forward on one batch row
(the model feeds tensors transposed to sequence-first, so batch rows are
independent): project, score, masked softmax, dropout on the attention
weights (`dm` is the dropout mask), weighted value sum per head,
concatenate heads and apply the output projection. -/
def mha {L nh d : ℕ} (w : MHAW nh d) (sc : ℚ) (e : ℚ → ℚ) (train : Bool)
    (dm : Fin nh → Fin L → Fin L → ℚ) (mask : Fin L → Fin L → Bool)
    (xq xk xv : SeqF L (nh * d)) : SeqF L (nh * d) :=
  fun i o =>
    (∑ h, ∑ a, w.wo o (finPair h a) *
      (∑ j, dropout train (dm h i j) (attWeight w sc e mask xq xk h i j) *
        vProj w xv h j a)) + w.bo o

/-- Weights of `PointWiseFeedForward`: two kernel-size-1 convolutions
(per-position linear maps) with biases. -/
structure FFNW (H : ℕ) where
  w1 : Fin H → Fin H → ℚ
  b1 : Vec H
  w2 : Fin H → Fin H → ℚ
  b2 : Vec H

/-- `PointWiseFeedForward.forward`:
`dropout2(conv2(relu(dropout1(conv1 x)))) + x`, applied per position
(`m1`, `m2` are the two dropout masks; `max _ 0` is ReLU). -/
def pointWiseFF {L H : ℕ} (fw : FFNW H) (train : Bool)
    (m1 m2 : Fin L → Vec H) (s : SeqF L H) : SeqF L H :=
  fun i c =>
    dropout train (m2 i c)
      ((∑ c2, fw.w2 c c2 *
        max (dropout train (m1 i c2)
          ((∑ c3, fw.w1 c2 c3 * s i c3) + fw.b1 c2)) 0) + fw.b2 c)
    + s i c

/-- The causal attention mask `~torch.tril(torch.ones((tl, tl)))`:
entry `(i, j)` is `true` (attention forbidden) exactly when `j > i`. -/
def causalMask {L : ℕ} (i j : Fin L) : Bool :=
  decide (i < j)

/-- Weights of one encoder block: attention layer norm, multi-head
attention, feed-forward layer norm, point-wise feed-forward. -/
structure BlockW (nh d : ℕ) where
  attnLN : LNW (nh * d)
  attn : MHAW nh d
  fwdLN : LNW (nh * d)
  ffn : FFNW (nh * d)

/-- Dropout masks consumed by one block in one forward call. -/
structure BlockMasks (B L nh d : ℕ) where
  attnM : Fin B → Fin nh → Fin L → Fin L → ℚ
  ffn1M : Fin B → Fin L → Vec (nh * d)
  ffn2M : Fin B → Fin L → Vec (nh * d)

/-- All dropout masks of one forward call: the embedding dropout mask and a
mask bundle for each block index. -/
structure Masks (B L nh d : ℕ) where
  embM : Fin B → Fin L → Vec (nh * d)
  blockM : ℕ → BlockMasks B L nh d

/-- Full weight record of a `SASRec` model with `item_num = N`,
`maxlen = L`, `num_heads = nh`, head dimension `d`
(`hidden_units = nh * d`), together with the abstract scalar parameters
described in the file header. -/
structure SASRecW (N L nh d : ℕ) where
  itemEmb : Fin (N + 1) → Vec (nh * d)
  posEmb : Fin L → Vec (nh * d)
  numBlocks : ℕ
  blocks : ℕ → BlockW nh d
  lastLN : LNW (nh * d)
  sqrtH : ℚ
  scaling : ℚ
  softexp : ℚ → ℚ
  rsqrt : ℚ → ℚ

/-- Forward pass of `torch.nn.Embedding` — a pure gather of weight rows.
(`padding_idx` only affects gradient accumulation, not the forward value.) -/
def lookupEmbedding {n H : ℕ} (weight : Fin n → Vec H) (id : Fin n) : Vec H :=
  weight id

/-- Indexing a raw `nn.Parameter` tensor with a `LongTensor` of ids —
also a pure gather of rows (the `nn_parameter` branch of the model). -/
def lookupParam {n H : ℕ} (table : Fin n → Vec H) (id : Fin n) : Vec H :=
  table id

/-- The item-sequence embedding as used by `log2feats`:
`seqs = item_emb(log_seqs)` followed by `seqs *= hidden_units ** 0.5`. -/
def embScaled {B L N nh d : ℕ} (w : SASRecW N L nh d)
    (x : Fin B → Fin L → Fin (N + 1)) : BatchF B L (nh * d) :=
  fun b i a => lookupEmbedding w.itemEmb (x b i) a * w.sqrtH

/-- The positional term added by `log2feats`:
`pos_emb(positions)` with `positions[b][i] = i`, broadcast over the batch.
Note: the code adds this term without any scaling. -/
def posBroadcast {B L N nh d : ℕ} (w : SASRecW N L nh d) :
    BatchF B L (nh * d) :=
  fun _ i => lookupEmbedding w.posEmb i

/-- `seqs` after adding positional embeddings (`seqs += pos_emb(...)`). -/
def embWithPos {B L N nh d : ℕ} (w : SASRecW N L nh d)
    (x : Fin B → Fin L → Fin (N + 1)) : BatchF B L (nh * d) :=
  fun b i a => embScaled w x b i a + posBroadcast w b i a

/-- The timeline mask `torch.BoolTensor(log_seqs == 0)`. -/
def tlMask {B L n : ℕ} (x : Fin B → Fin L → Fin n) (b : Fin B) (i : Fin L) :
    Bool :=
  decide ((x b i).val = 0)

/-- `seqs` after embedding dropout and the first timeline masking
(`seqs = emb_dropout(seqs); seqs *= ~timeline_mask.unsqueeze(-1)`). -/
def embMasked {B L N nh d : ℕ} (w : SASRecW N L nh d) (train : Bool)
    (ms : Masks B L nh d) (x : Fin B → Fin L → Fin (N + 1)) :
    BatchF B L (nh * d) :=
  fun b i a =>
    dropout train (ms.embM b i a) (embWithPos w x b i a) *
      (if tlMask x b i then 0 else 1)

/-- One iteration of the block loop in `log2feats`: layer-norm the current
sequence into the query `Q`, run masked multi-head attention with `Q` as
query and the pre-normalization sequence as key and value, add `Q` as the
residual, layer-norm, apply the point-wise feed-forward block, and re-zero
the timeline-masked (padding) positions. -/
def blockStep {B L nh d : ℕ} (bw : BlockW nh d) (sc : ℚ) (e r : ℚ → ℚ)
    (train : Bool) (bm : BlockMasks B L nh d) (tl : Fin B → Fin L → Bool)
    (s : BatchF B L (nh * d)) : BatchF B L (nh * d) :=
  fun b i a =>
    pointWiseFF bw.ffn train (bm.ffn1M b) (bm.ffn2M b)
      (fun i2 => layerNorm r bw.fwdLN (fun o =>
        layerNorm r bw.attnLN (s b i2) o +
        mha bw.attn sc e train (bm.attnM b) causalMask
          (fun j => layerNorm r bw.attnLN (s b j)) (s b) (s b) i2 o)) i a *
    (if tl b i then 0 else 1)

/-- Iterate an indexed step function: `iterBlocks f (k+1) x = f k (iterBlocks f k x)`,
so blocks are applied in order `0, 1, ...`. -/
def iterBlocks {α : Type} (step : ℕ → α → α) : ℕ → α → α
  | 0, x => x
  | k + 1, x => step k (iterBlocks step k x)

/-- The encoder state after the first `k` blocks of `log2feats`
(`k = 0` is the state right after embedding, dropout and the first
timeline masking). -/
def encodeBlocks {B L N nh d : ℕ} (w : SASRecW N L nh d) (train : Bool)
    (ms : Masks B L nh d) (x : Fin B → Fin L → Fin (N + 1)) (k : ℕ) :
    BatchF B L (nh * d) :=
  iterBlocks
    (fun n s => blockStep (w.blocks n) w.scaling w.softexp w.rsqrt train
      (ms.blockM n) (tlMask x) s)
    k (embMasked w train ms x)

/-- `SASRec.log2feats`: run all `num_blocks` blocks and apply the final
layer norm. -/
def log2feats {B L N nh d : ℕ} (w : SASRecW N L nh d) (train : Bool)
    (ms : Masks B L nh d) (x : Fin B → Fin L → Fin (N + 1)) :
    BatchF B L (nh * d) :=
  fun b i => layerNorm w.rsqrt w.lastLN (encodeBlocks w train ms x w.numBlocks b i)

/-- The `nn_parameter = True` branch of the embedding step of `log2feats`:
`seqs = item_emb[log_seqs] * hidden ** 0.5; seqs += pos_emb[positions]`
via raw tensor indexing, then embedding dropout and the first timeline
masking — the same tail as the indexed-lookup branch. -/
def embMaskedParam {B L N nh d : ℕ} (w : SASRecW N L nh d) (train : Bool)
    (ms : Masks B L nh d) (x : Fin B → Fin L → Fin (N + 1)) :
    BatchF B L (nh * d) :=
  fun b i a =>
    dropout train (ms.embM b i a)
      (lookupParam w.itemEmb (x b i) a * w.sqrtH + lookupParam w.posEmb i a) *
    (if tlMask x b i then 0 else 1)

/-- `SASRec.log2feats` in the raw-parameter (`nn_parameter = True`) variant:
the embedding rows are gathered by tensor indexing instead of
`nn.Embedding` calls; the remaining pipeline is the shared code path. -/
def log2featsParam {B L N nh d : ℕ} (w : SASRecW N L nh d) (train : Bool)
    (ms : Masks B L nh d) (x : Fin B → Fin L → Fin (N + 1)) :
    BatchF B L (nh * d) :=
  fun b i => layerNorm w.rsqrt w.lastLN
    (iterBlocks
      (fun n s => blockStep (w.blocks n) w.scaling w.softexp w.rsqrt train
        (ms.blockM n) (tlMask x) s)
      w.numBlocks (embMaskedParam w train ms x) b i)

/-- The item-embedding gather used by `forward` for `pos_seqs`/`neg_seqs`
and by `predict` for `item_indices`: a raw gather, with no
`hidden ** 0.5` scaling in either embedding variant. -/
def itemGatherB {B L N H : ℕ} (itemEmb : Fin (N + 1) → Vec H)
    (s : Fin B → Fin L → Fin (N + 1)) : BatchF B L H :=
  fun b i => lookupEmbedding itemEmb (s b i)

/-- `tensor.reshape(-1, hidden)` on a `(B, L, H)` tensor: row `p` of the
result is row `(p / L, p % L)` of the input. -/
def reshapeBL {B Lm H : ℕ} (t : BatchF B (Lm + 1) H) :
    Fin (B * (Lm + 1)) → Vec H :=
  fun p => t ⟨p.val / (Lm + 1), (Nat.div_lt_iff_lt_mul (Nat.succ_pos Lm)).mpr p.2⟩
    ⟨p.val % (Lm + 1), Nat.mod_lt _ (Nat.succ_pos Lm)⟩

/-- The `mode` argument of `SASRec.forward`. -/
inductive ForwardMode
  | default
  | log_only
  | item
deriving DecidableEq

/-- Return value of `SASRec.forward`, one constructor per mode. -/
inductive ForwardOut (B Lm H : ℕ)
  | pair (posLogits negLogits : Fin B → Fin (Lm + 1) → ℚ)
  | logOnly (feats : Fin B → Vec H)
  | triple (feats posEmbs negEmbs : Fin (B * (Lm + 1)) → Vec H)

/-- `SASRec.forward`: encode the log sequences; in `log_only` mode return
the final-position features; otherwise gather positive/negative item
embeddings and return either elementwise dot-product logits (`default`)
or the reshaped feature/embedding triple (`item`).
The `user_ids` argument is accepted but never read, as in the source. -/
def forward {B Lm N nh d : ℕ} (w : SASRecW N (Lm + 1) nh d) (train : Bool)
    (ms : Masks B (Lm + 1) nh d) (user_ids : List ℕ)
    (log_seqs pos_seqs neg_seqs : Fin B → Fin (Lm + 1) → Fin (N + 1))
    (mode : ForwardMode) : ForwardOut B Lm (nh * d) :=
  let log_feats := log2feats w train ms log_seqs
  match mode with
  | .log_only => .logOnly (fun b => log_feats b (Fin.last Lm))
  | .item =>
      .triple (reshapeBL log_feats)
        (reshapeBL (itemGatherB w.itemEmb pos_seqs))
        (reshapeBL (itemGatherB w.itemEmb neg_seqs))
  | .default =>
      .pair
        (fun b i => ∑ a, log_feats b i a * itemGatherB w.itemEmb pos_seqs b i a)
        (fun b i => ∑ a, log_feats b i a * itemGatherB w.itemEmb neg_seqs b i a)

/-- `SASRec.predict`: encode, take the final-position feature, gather the
candidate item embeddings, and return the batched matrix-vector product
`item_embs.matmul(final_feat.unsqueeze(-1)).squeeze(-1)`; no softmax or
sigmoid is applied. `user_ids` is accepted but never read. -/
def predict {B Lm K N nh d : ℕ} (w : SASRecW N (Lm + 1) nh d) (train : Bool)
    (ms : Masks B (Lm + 1) nh d) (user_ids : List ℕ)
    (log_seqs : Fin B → Fin (Lm + 1) → Fin (N + 1))
    (item_indices : Fin B → Fin K → Fin (N + 1)) : Fin B → Fin K → ℚ :=
  let log_feats := log2feats w train ms log_seqs
  let final_feat := fun b => log_feats b (Fin.last Lm)
  fun b k => ∑ a, lookupEmbedding w.itemEmb (item_indices b k) a * final_feat b a

/-! ### The debug/verification harness (`SASRec.debug_embedding`)

The harness is modelled as an explicit state transformer.  The source keys
its per-call-site length log by the string `fname + "_" + vname`; the five
call-site/variable pairs that occur in the program are modelled as an
enumeration.  Tensors stored in the debug state are flattened to lists so
that records of different shapes can live in one list, mirroring the
heterogeneous Python dicts in `back_state`. -/

/-- The call-site/variable-name pairs (`fname + "_" + vname`) under which
`debug_embedding` is invoked in the source. -/
inductive CallSite
  | log2feats_log_seqs
  | log2feats_positions
  | forward_pos_seqs
  | forward_neg_seqs
  | predict_item_indices
deriving DecidableEq

/-- One entry of `self.back_state`: the CPU duplicate of the embedding
table, the saved input ids, the reference lookup result, and flags
recording that the two gradient hooks were registered. -/
structure DebugRecord where
  embObjCpuWeight : List (List ℚ)
  input : List (List ℤ)
  ref : List (List (List ℚ))
  hookWeightRegistered : Bool
  hookOutRegistered : Bool
deriving DecidableEq

/-- The accumulating debug state of a `SASRec` instance: `back_state`
plus the per-call-site lists of observed input lengths (the dynamically
created `self.<fname>_<vname>` attributes). -/
structure DebugState where
  backState : List DebugRecord
  attrLens : List (CallSite × List ℕ)
deriving DecidableEq

/-- The observable actions of one `debug_embedding` call. -/
structure DebugActions where
  printValues : Bool
  loggedNewLen : Bool
  builtCpuDup : Bool
  compared : Bool
  cmpOk : Bool
deriving DecidableEq

/-- Debug state of a freshly constructed model (`self.back_state = []`,
no length attributes yet). -/
def emptyDebugState : DebugState :=
  { backState := [], attrLens := [] }

/-- Look up the length list recorded for a call site (`getattr`). -/
def lensLookup (l : List (CallSite × List ℕ)) (c : CallSite) :
    Option (List ℕ) :=
  (l.find? (fun p => decide (p.1 = c))).map Prod.snd

/-- Replace the length list recorded for a call site (in-place list
mutation in the source). -/
def setLens (st : DebugState) (c : CallSite) (ls : List ℕ) : DebugState :=
  { st with attrLens := st.attrLens.map (fun p => if p.1 = c then (c, ls) else p) }

/-- The length-tracking prologue of `debug_embedding`: fetch (or create,
on `AttributeError`) the per-call-site length list, and append `len(v)`
when it has not been seen.  Returns the new state, the `print_values`
flag (true exactly on the first observation of the call site) and whether
a new length was logged. -/
def updateLens (st : DebugState) (c : CallSite) (n : ℕ) :
    DebugState × Bool × Bool :=
  match lensLookup st.attrLens c with
  | some lens =>
      if n ∈ lens then (st, false, false)
      else (setLens st c (lens ++ [n]), false, true)
  | none =>
      ({ st with attrLens := st.attrLens ++ [(c, [n])] }, true, true)

/-- The reference lookup `emb_obj_cpu(input)`: gather rows of the CPU
duplicate table at the stored ids. -/
def refGather (tbl : List (List ℚ)) (v : List (List ℤ)) :
    List (List (List ℚ)) :=
  v.map (fun row => row.map (fun id => tbl.getD id.toNat []))

/-- The `back_state` record built by one `debug_embedding` call: the CPU
duplicate of the table (weights copied, so identical), the input ids, the
reference result, and both gradient hooks registered. -/
def debugRecordOf (tbl : List (List ℚ)) (v : List (List ℤ)) : DebugRecord :=
  { embObjCpuWeight := tbl
    input := v
    ref := refGather tbl v
    hookWeightRegistered := true
    hookOutRegistered := true }

/-- `SASRec.debug_embedding` as a state transformer.  On every call it:
tracks observed input lengths (printing shapes only on the first
observation of the call site), appends a fresh record to `back_state`,
builds the CPU duplicate table, recomputes the lookup there, compares the
accelerator output `out` bit-exactly against the reference, and registers
the two gradient hooks.  It never modifies `out`. -/
def debugEmbedding (st : DebugState) (c : CallSite) (v : List (List ℤ))
    (tbl : List (List ℚ)) (out : List (List (List ℚ))) :
    DebugState × DebugActions :=
  let u := updateLens st c v.length
  let cmpOk := decide (out = refGather tbl v)
  ({ u.1 with backState := u.1.backState ++ [debugRecordOf tbl v] },
   { printValues := u.2.1
     loggedNewLen := u.2.2
     builtCpuDup := true
     compared := true
     cmpOk := cmpOk })

/-- Flatten a `(B, L, H)` tensor to nested lists (for storage in the
debug state). -/
def tensorToList3 {B L H : ℕ} (t : BatchF B L H) : List (List (List ℚ)) :=
  List.ofFn (fun b => List.ofFn (fun i => List.ofFn (fun a => t b i a)))

/-- Flatten a batch of id sequences to nested integer lists
(`torch.LongTensor(v)`). -/
def idsToList {B L n : ℕ} (x : Fin B → Fin L → Fin n) : List (List ℤ) :=
  List.ofFn (fun b => List.ofFn (fun i => ((x b i).val : ℤ)))

/-- Flatten an embedding table to nested lists. -/
def tableToList {n H : ℕ} (t : Fin n → Vec H) : List (List ℚ) :=
  List.ofFn (fun r => List.ofFn (fun a => t r a))

/-- The `positions` array of `log2feats`:
`np.tile(np.array(range(L)), [B, 1])`. -/
def positionsList (B L : ℕ) : List (List ℤ) :=
  List.ofFn (n := B) (fun _ => List.ofFn (n := L) (fun i => (i.val : ℤ)))

/-- `SASRec.log2feats` in the indexed-lookup (`nn_parameter = False`)
variant with the debug harness threaded through: the two
`debug_embedding` calls observe the unscaled item gather and the
positional gather and update the debug state; the returned features are
computed by the shared numeric pipeline. -/
def log2featsDebug {B L N nh d : ℕ} (st : DebugState) (w : SASRecW N L nh d)
    (train : Bool) (ms : Masks B L nh d)
    (x : Fin B → Fin L → Fin (N + 1)) :
    DebugState × BatchF B L (nh * d) :=
  let s0 : BatchF B L (nh * d) := fun b i => lookupEmbedding w.itemEmb (x b i)
  let st1 := (debugEmbedding st CallSite.log2feats_log_seqs (idsToList x)
    (tableToList w.itemEmb) (tensorToList3 s0)).1
  let addT : BatchF B L (nh * d) := fun _ i => lookupEmbedding w.posEmb i
  let st2 := (debugEmbedding st1 CallSite.log2feats_positions
    (positionsList B L) (tableToList w.posEmb) (tensorToList3 addT)).1
  (st2, log2feats w train ms x)

/-! ### Concrete test fixtures (small weight settings used by witnesses and
counterexamples) -/

/-- A layer norm with unit gain and zero shift. -/
def lnOne : LNW 1 :=
  { gamma := fun _ => 1, beta := fun _ => 0 }

/-- A concrete one-head, head-dimension-one block with all projection
weights `1` and all biases `0`. -/
def blockOne : BlockW 1 1 :=
  { attnLN := lnOne
    attn :=
      { wq := fun _ _ => 1, bq := fun _ => 0
        wk := fun _ _ => 1, bk := fun _ => 0
        wv := fun _ _ => 1, bv := fun _ => 0
        wo := fun _ _ => 1, bo := fun _ => 0 }
    fwdLN := lnOne
    ffn := { w1 := fun _ _ => 1, b1 := fun _ => 0
             w2 := fun _ _ => 1, b2 := fun _ => 0 } }

/-- A concrete model: `item_num = 2`, `maxlen = 2`, one head of dimension
one, one block. -/
def wOne : SASRecW 2 2 1 1 :=
  { itemEmb := fun id _ => (id.val : ℚ)
    posEmb := fun i _ => (i.val : ℚ) / 3
    numBlocks := 1
    blocks := fun _ => blockOne
    lastLN := lnOne
    sqrtH := 1
    scaling := 1
    softexp := fun q => 1 + q / 100
    rsqrt := fun _ => 1 }

/-- Concrete dropout masks (all zero; irrelevant in evaluation mode). -/
def msOne : Masks 1 2 1 1 :=
  { embM := fun _ _ _ => 0
    blockM := fun _ =>
      { attnM := fun _ _ _ _ => 0
        ffn1M := fun _ _ _ => 0
        ffn2M := fun _ _ _ => 0 } }

/-- Concrete input batch `[[1, 1]]`. -/
def xOne : Fin 1 → Fin 2 → Fin 3 := fun _ _ => 1

/-- Concrete input batch `[[1, 2]]`: agrees with `xOne` at position `0`
and is perturbed at position `1`. -/
def yOne : Fin 1 → Fin 2 → Fin 3 := fun _ j => if j.val = 0 then 1 else 2

/-- Concrete all-padding input batch `[[0, 0]]`. -/
def xPadOne : Fin 1 → Fin 2 → Fin 3 := fun _ _ => 0

/-- The model `wOne` with `sqrtH = 2` (hidden dimension whose square root
is exact) and a nonzero positional table, used to exhibit the missing
positional scaling. -/
def wScale2 : SASRecW 2 2 1 1 :=
  { wOne with sqrtH := 2, posEmb := fun _ _ => 1 }

/-- Concrete id array for debug-harness fixtures (`[[1, 1]]`). -/
def dbgV : List (List ℤ) := [[1, 1]]

/-- Concrete embedding table for debug-harness fixtures. -/
def dbgTbl : List (List ℚ) := [[0], [1], [2]]

/-- Concrete accelerator output for debug-harness fixtures (the gather of
`dbgTbl` at `dbgV`). -/
def dbgOut : List (List (List ℚ)) := [[[1], [1]]]

/-- A debug state in which the call site `log2feats_log_seqs` has already
been observed once (with input length `1`). -/
def stSeen : DebugState :=
  { backState := [], attrLens := [(CallSite.log2feats_log_seqs, [1])] }

/-! ## Theorems -/

-- Dropout in evaluation mode is the identity, whatever the mask.
theorem dropout_false (m x : ℚ) : dropout false m x = x := rfl

-- Dropout of a zero value is zero in both modes.
theorem dropout_zero (train : Bool) (m : ℚ) : dropout train m 0 = 0 := by
  unfold dropout
  split <;> simp

-- The length-tracking prologue never touches `back_state`.
theorem updateLens_backState (st : DebugState) (c : CallSite) (n : ℕ) :
    (updateLens st c n).1.backState = st.backState := by
  unfold updateLens
  cases h : lensLookup st.attrLens c with
  | some lens =>
    by_cases hn : n ∈ lens <;> simp [hn, setLens]
  | none => rfl

/-- C2: in every `log2feats` call, the feature rows at padding positions
(input id `0`) are exactly the zero vector after the initial
embedding + dropout + masking step (`k = 0`) and after each block
iteration (`k = number of blocks applied so far`). -/
theorem C2_timeline_mask_invariant {B L N nh d : ℕ} (w : SASRecW N L nh d)
    (train : Bool) (ms : Masks B L nh d)
    (x : Fin B → Fin L → Fin (N + 1)) (k : ℕ) (b : Fin B) (i : Fin L)
    (h : (x b i).val = 0) :
    ∀ a, encodeBlocks w train ms x k b i a = 0 := by
  intro a
  cases k with
  | zero =>
    simp [encodeBlocks, iterBlocks, embMasked, tlMask, h]
  | succ k =>
    simp [encodeBlocks, iterBlocks, blockStep, tlMask, h]

/-- Witness for C2 at a concrete model and the all-padding batch
`[[0, 0]]`, after one block. -/
theorem C2_timeline_mask_invariant_witness :
    ((xPadOne 0 0).val = 0) ∧
    (∀ a, encodeBlocks wOne false msOne xPadOne 1 0 0 a = 0) :=
  ⟨by decide, C2_timeline_mask_invariant wOne false msOne xPadOne 1 0 0 (by decide)⟩

/-- C3 counterexample: the positional lookup is added without the
`sqrt(hidden_units)` factor.  With `sqrtH = 2` and positional row `1`,
the combined embedding at a padding item (item row zero) is `1`, not the
`2` that scaling every lookup would give, so not every embedding lookup
result is multiplied by `sqrt(hidden_units)`. -/
theorem C3_scaling_counterexample :
    embWithPos wScale2 xPadOne 0 0 0 ≠
      lookupEmbedding wScale2.itemEmb (xPadOne 0 0) 0 * wScale2.sqrtH +
      lookupEmbedding wScale2.posEmb 0 0 * wScale2.sqrtH := by
  norm_num [embWithPos, embScaled, posBroadcast, lookupEmbedding, wScale2,
    wOne, xPadOne]

/-- C3 (amended): in `log2feats` only the item-sequence lookup is scaled
by `sqrt(hidden_units)`; the positional term and the positive/negative
(and candidate) item gathers of `forward`/`predict` are raw unscaled
gathers of the embedding rows. -/
theorem C3_scaling_amended {B L N nh d : ℕ} (w : SASRecW N L nh d)
    (x s : Fin B → Fin L → Fin (N + 1)) (b : Fin B) (i : Fin L)
    (a : Fin (nh * d)) :
    embScaled w x b i a = w.itemEmb (x b i) a * w.sqrtH ∧
    posBroadcast w b i a = w.posEmb i a ∧
    embWithPos w x b i a = w.itemEmb (x b i) a * w.sqrtH + w.posEmb i a ∧
    itemGatherB w.itemEmb s b i a = w.itemEmb (s b i) a :=
  ⟨rfl, rfl, rfl, rfl⟩

/-- C4: in every block of `log2feats`, the query `Q` is the
layer-normalized current sequence, multi-head attention is called with
`Q` as query and the pre-normalization sequence as both key and value,
and the residual added before the feed-forward stage is `Q` itself (the
first summand below), not the raw pre-norm input. -/
theorem C4_attention_block_wiring {B L N nh d : ℕ} (w : SASRecW N L nh d)
    (train : Bool) (ms : Masks B L nh d)
    (x : Fin B → Fin L → Fin (N + 1)) (k : ℕ) (b : Fin B) (i : Fin L)
    (a : Fin (nh * d)) :
    encodeBlocks w train ms x (k + 1) b i a =
      pointWiseFF (w.blocks k).ffn train ((ms.blockM k).ffn1M b)
        ((ms.blockM k).ffn2M b)
        (fun i2 => layerNorm w.rsqrt (w.blocks k).fwdLN (fun o =>
          layerNorm w.rsqrt (w.blocks k).attnLN
            (encodeBlocks w train ms x k b i2) o +
          mha (w.blocks k).attn w.scaling w.softexp train
            ((ms.blockM k).attnM b) causalMask
            (fun j => layerNorm w.rsqrt (w.blocks k).attnLN
              (encodeBlocks w train ms x k b j))
            (encodeBlocks w train ms x k b)
            (encodeBlocks w train ms x k b) i2 o)) i a *
      (if tlMask x b i then 0 else 1) :=
  rfl

/-- C6: `predict` returns the `(B, K)` tensor whose entry `(b, k)` is the
dot product of the final-position encoder feature of batch row `b` with
the gathered embedding of candidate `k`; no softmax or sigmoid is
applied. -/
theorem C6_predict_semantics {B Lm K N nh d : ℕ}
    (w : SASRecW N (Lm + 1) nh d) (train : Bool)
    (ms : Masks B (Lm + 1) nh d) (u : List ℕ)
    (x : Fin B → Fin (Lm + 1) → Fin (N + 1))
    (idx : Fin B → Fin K → Fin (N + 1)) (b : Fin B) (k : Fin K) :
    predict w train ms u x idx b k =
      ∑ a, w.itemEmb (idx b k) a *
        log2feats w train ms x b (Fin.last Lm) a :=
  rfl

/-- C7: with the weights copied identically, the indexed-lookup variant
(with the debug harness threaded through, starting from any debug state)
computes exactly the same encoder output as the raw-parameter variant —
in particular the outputs agree at every position, which implies the
claimed agreement up to floating tolerance away from the padding row —
and the harness has no effect on the forward numerical result. -/
theorem C7_embedding_variant_equivalence {B L N nh d : ℕ}
    (st : DebugState) (w : SASRecW N L nh d) (train : Bool)
    (ms : Masks B L nh d) (x : Fin B → Fin L → Fin (N + 1)) :
    (log2featsDebug st w train ms x).2 = log2featsParam w train ms x ∧
    (log2featsDebug st w train ms x).2 = log2feats w train ms x :=
  ⟨rfl, rfl⟩

/-- C8 counterexample: the instrumentation record is not discarded or
overwritten on the next call — after two `debug_embedding` calls starting
from a fresh model, `back_state` holds two records, so the debug state
accumulates across calls. -/
theorem C8_debug_state_counterexample :
    ((debugEmbedding
        ((debugEmbedding emptyDebugState CallSite.log2feats_log_seqs
          dbgV dbgTbl dbgOut).1)
        CallSite.log2feats_log_seqs dbgV dbgTbl dbgOut).1.backState.length
      = 2) ∧
    ¬ ((debugEmbedding
        ((debugEmbedding emptyDebugState CallSite.log2feats_log_seqs
          dbgV dbgTbl dbgOut).1)
        CallSite.log2feats_log_seqs dbgV dbgTbl dbgOut).1.backState.length
      ≤ 1) := by
  decide

/-- C8 (amended): every `debug_embedding` call appends exactly one fresh
record to `back_state` and leaves all earlier records in place, so the
debug state grows by one record per lookup and is never discarded unless
reset externally. -/
theorem C8_debug_state_amended (st : DebugState) (c : CallSite)
    (v : List (List ℤ)) (tbl : List (List ℚ))
    (out : List (List (List ℚ))) :
    (debugEmbedding st c v tbl out).1.backState =
      st.backState ++ [debugRecordOf tbl v] := by
  simp [debugEmbedding, updateLens_backState]

/-- C9 counterexample: the bit-exact comparison is not restricted to the
first observation of a call-site — starting from a state in which
`log2feats_log_seqs` has already been observed, the next call still
performs the comparison. -/
theorem C9_first_observation_counterexample :
    ((debugEmbedding stSeen CallSite.log2feats_log_seqs dbgV dbgTbl
        dbgOut).2.compared = true) ∧
    lensLookup stSeen.attrLens CallSite.log2feats_log_seqs ≠ none := by
  decide

/-- C9 (amended): the CPU duplicate table is built and the bit-exact
(zero-tolerance, NaN-equal) comparison is performed on every
`debug_embedding` call; only the shape printing is gated on the first
observation of the call-site. -/
theorem C9_comparison_every_call (st : DebugState) (c : CallSite)
    (v : List (List ℤ)) (tbl : List (List ℚ))
    (out : List (List (List ℚ))) :
    (debugEmbedding st c v tbl out).2.compared = true ∧
    (debugEmbedding st c v tbl out).2.builtCpuDup = true ∧
    (debugEmbedding st c v tbl out).2.printValues =
      (lensLookup st.attrLens c).isNone := by
  refine ⟨rfl, rfl, ?_⟩
  unfold debugEmbedding updateLens
  cases h : lensLookup st.attrLens c with
  | some lens =>
    by_cases hn : v.length ∈ lens <;> simp [h, hn]
  | none => simp [h]

-- Unfolding equation: zero blocks applied.
theorem encodeBlocks_zero {B L N nh d : ℕ} (w : SASRecW N L nh d)
    (train : Bool) (ms : Masks B L nh d)
    (x : Fin B → Fin L → Fin (N + 1)) :
    encodeBlocks w train ms x 0 = embMasked w train ms x := rfl

-- Unfolding equation: one more block applied.
theorem encodeBlocks_succ {B L N nh d : ℕ} (w : SASRecW N L nh d)
    (train : Bool) (ms : Masks B L nh d)
    (x : Fin B → Fin L → Fin (N + 1)) (k : ℕ) :
    encodeBlocks w train ms x (k + 1) =
      blockStep (w.blocks k) w.scaling w.softexp w.rsqrt train
        (ms.blockM k) (tlMask x) (encodeBlocks w train ms x k) := rfl

-- In evaluation mode the embedding step ignores the dropout masks.
theorem embMasked_eval_masks {B L N nh d : ℕ} (w : SASRecW N L nh d)
    (ms1 ms2 : Masks B L nh d) (x : Fin B → Fin L → Fin (N + 1)) :
    embMasked w false ms1 x = embMasked w false ms2 x := by
  funext b i a
  simp [embMasked, dropout_false]

-- In evaluation mode a block ignores its dropout masks.
theorem blockStep_eval_masks {B L nh d : ℕ} (bw : BlockW nh d) (sc : ℚ)
    (e r : ℚ → ℚ) (bm1 bm2 : BlockMasks B L nh d)
    (tl : Fin B → Fin L → Bool) (s : BatchF B L (nh * d)) :
    blockStep bw sc e r false bm1 tl s = blockStep bw sc e r false bm2 tl s := by
  funext b i a
  simp only [blockStep, pointWiseFF, mha, attWeight, dropout_false]

-- In evaluation mode the block stack ignores the dropout masks.
theorem encodeBlocks_eval_masks {B L N nh d : ℕ} (w : SASRecW N L nh d)
    (ms1 ms2 : Masks B L nh d) (x : Fin B → Fin L → Fin (N + 1)) :
    ∀ k, encodeBlocks w false ms1 x k = encodeBlocks w false ms2 x k := by
  intro k
  induction k with
  | zero =>
    rw [encodeBlocks_zero, encodeBlocks_zero]
    exact embMasked_eval_masks w ms1 ms2 x
  | succ k ih =>
    rw [encodeBlocks_succ, encodeBlocks_succ, ih,
      blockStep_eval_masks (w.blocks k) w.scaling w.softexp w.rsqrt
        (ms1.blockM k) (ms2.blockM k) (tlMask x)]

/-- C5: with dropout disabled (evaluation mode), the encoder output is a
pure function of the input and the weights — it does not depend on the
dropout masks, the only stochastic ingredient, so two calls with
identical inputs and weights produce identical outputs. -/
theorem C5_eval_deterministic {B L N nh d : ℕ} (w : SASRecW N L nh d)
    (ms1 ms2 : Masks B L nh d) (x : Fin B → Fin L → Fin (N + 1)) :
    log2feats w false ms1 x = log2feats w false ms2 x := by
  funext b i
  simp only [log2feats]
  rw [encodeBlocks_eval_masks w ms1 ms2 x w.numBlocks]

-- The causal mask forbids nothing at or before the query position.
theorem causalMask_false_iff {L : ℕ} (i j : Fin L) :
    causalMask i j = false ↔ j ≤ i := by
  simp [causalMask, Fin.not_lt]

-- Masked softmax only reads the scores at unmasked positions.
theorem maskedSoftmax_congr {L : ℕ} (e : ℚ → ℚ) (mask : Fin L → Bool)
    (s t : Fin L → ℚ) (h : ∀ j, mask j = false → s j = t j) :
    maskedSoftmax e mask s = maskedSoftmax e mask t := by
  have hden : (∑ j2, if mask j2 then 0 else e (s j2)) =
      (∑ j2, if mask j2 then 0 else e (t j2)) := by
    apply Finset.sum_congr rfl
    intro j2 _
    by_cases h2 : mask j2 = true
    · simp [h2]
    · have h2f : mask j2 = false := by simpa using h2
      simp [h2f, h j2 h2f]
  funext j
  unfold maskedSoftmax
  by_cases hj : mask j = true
  · simp [hj]
  · have hjf : mask j = false := by simpa using hj
    simp [hjf, h j hjf, hden]

-- The query projection at position `i` only reads the query row `i`.
theorem qProj_congr {L nh d : ℕ} (w : MHAW nh d) (sc : ℚ)
    (xq yq : SeqF L (nh * d)) (h : Fin nh) (i : Fin L) (hq : xq i = yq i) :
    ∀ a, qProj w sc xq h i a = qProj w sc yq h i a := by
  intro a
  unfold qProj
  rw [hq]

-- The key projection at position `j` only reads the key row `j`.
theorem kProj_congr {L nh d : ℕ} (w : MHAW nh d) (xk yk : SeqF L (nh * d))
    (h : Fin nh) (j : Fin L) (hk : xk j = yk j) :
    ∀ a, kProj w xk h j a = kProj w yk h j a := by
  intro a
  unfold kProj
  rw [hk]

-- The value projection at position `j` only reads the value row `j`.
theorem vProj_congr {L nh d : ℕ} (w : MHAW nh d) (xv yv : SeqF L (nh * d))
    (h : Fin nh) (j : Fin L) (hv : xv j = yv j) :
    ∀ a, vProj w xv h j a = vProj w yv h j a := by
  intro a
  unfold vProj
  rw [hv]

-- The attention score `(i, j)` only reads query row `i` and key row `j`.
theorem attScore_congr {L nh d : ℕ} (w : MHAW nh d) (sc : ℚ)
    (xq xk yq yk : SeqF L (nh * d)) (h : Fin nh) (i j : Fin L)
    (hq : xq i = yq i) (hk : xk j = yk j) :
    attScore w sc xq xk h i j = attScore w sc yq yk h i j := by
  unfold attScore
  apply Finset.sum_congr rfl
  intro a _
  rw [qProj_congr w sc xq yq h i hq a, kProj_congr w xk yk h j hk a]

-- Under the causal mask, the attention output at position `i` only reads
-- the query row `i` and the key/value rows at positions `j ≤ i`.
theorem mha_causal {L nh d : ℕ} (w : MHAW nh d) (sc : ℚ) (e : ℚ → ℚ)
    (train : Bool) (dm : Fin nh → Fin L → Fin L → ℚ)
    (xq xk xv yq yk yv : SeqF L (nh * d)) (i : Fin L)
    (hq : xq i = yq i) (hk : ∀ j, j ≤ i → xk j = yk j)
    (hv : ∀ j, j ≤ i → xv j = yv j) :
    mha w sc e train dm causalMask xq xk xv i =
    mha w sc e train dm causalMask yq yk yv i := by
  have hw : ∀ h, attWeight w sc e causalMask xq xk h i =
      attWeight w sc e causalMask yq yk h i := by
    intro h
    unfold attWeight
    apply maskedSoftmax_congr
    intro j hj
    exact attScore_congr w sc xq xk yq yk h i j hq
      (hk j ((causalMask_false_iff i j).mp hj))
  funext o
  unfold mha
  congr 1
  apply Finset.sum_congr rfl
  intro h _
  apply Finset.sum_congr rfl
  intro a _
  congr 1
  apply Finset.sum_congr rfl
  intro j _
  by_cases hj : causalMask i j = true
  · have hx : attWeight w sc e causalMask xq xk h i j = 0 := by
      simp [attWeight, maskedSoftmax, hj]
    have hy : attWeight w sc e causalMask yq yk h i j = 0 := by
      simp [attWeight, maskedSoftmax, hj]
    rw [hx, hy, dropout_zero, zero_mul, zero_mul]
  · have hjf : causalMask i j = false := by simpa using hj
    have hle : j ≤ i := (causalMask_false_iff i j).mp hjf
    rw [congrFun (hw h) j, vProj_congr w xv yv h j (hv j hle) a]

-- The feed-forward block at position `i` only reads the input row `i`.
theorem pointWiseFF_pointwise {L H : ℕ} (fw : FFNW H) (train : Bool)
    (m1 m2 : Fin L → Vec H) (s t : SeqF L H) (i : Fin L) (h : s i = t i) :
    pointWiseFF fw train m1 m2 s i = pointWiseFF fw train m1 m2 t i := by
  funext c
  unfold pointWiseFF
  rw [h]

-- One block preserves agreement of two runs at every position up to `i`.
theorem blockStep_causal {B L nh d : ℕ} (bw : BlockW nh d) (sc : ℚ)
    (e r : ℚ → ℚ) (train : Bool) (bm : BlockMasks B L nh d)
    (tlx tly : Fin B → Fin L → Bool) (s t : BatchF B L (nh * d))
    (b : Fin B) (i : Fin L) (hs : ∀ j, j ≤ i → s b j = t b j)
    (htl : tlx b i = tly b i) :
    blockStep bw sc e r train bm tlx s b i =
    blockStep bw sc e r train bm tly t b i := by
  have hci : s b i = t b i := hs i le_rfl
  have hmha := mha_causal bw.attn sc e train (bm.attnM b)
    (fun j => layerNorm r bw.attnLN (s b j)) (s b) (s b)
    (fun j => layerNorm r bw.attnLN (t b j)) (t b) (t b) i
    (by show layerNorm r bw.attnLN (s b i) = layerNorm r bw.attnLN (t b i)
        rw [hci])
    hs hs
  have hinner : layerNorm r bw.fwdLN (fun o =>
      layerNorm r bw.attnLN (s b i) o +
      mha bw.attn sc e train (bm.attnM b) causalMask
        (fun j => layerNorm r bw.attnLN (s b j)) (s b) (s b) i o) =
    layerNorm r bw.fwdLN (fun o =>
      layerNorm r bw.attnLN (t b i) o +
      mha bw.attn sc e train (bm.attnM b) causalMask
        (fun j => layerNorm r bw.attnLN (t b j)) (t b) (t b) i o) := by
    have harg : (fun o =>
        layerNorm r bw.attnLN (s b i) o +
        mha bw.attn sc e train (bm.attnM b) causalMask
          (fun j => layerNorm r bw.attnLN (s b j)) (s b) (s b) i o) =
      (fun o =>
        layerNorm r bw.attnLN (t b i) o +
        mha bw.attn sc e train (bm.attnM b) causalMask
          (fun j => layerNorm r bw.attnLN (t b j)) (t b) (t b) i o) := by
      funext o
      rw [hci, congrFun hmha o]
    rw [harg]
  funext a
  unfold blockStep
  rw [htl, congrFun (pointWiseFF_pointwise bw.ffn train (bm.ffn1M b)
    (bm.ffn2M b)
    (fun i2 => layerNorm r bw.fwdLN (fun o =>
      layerNorm r bw.attnLN (s b i2) o +
      mha bw.attn sc e train (bm.attnM b) causalMask
        (fun j => layerNorm r bw.attnLN (s b j)) (s b) (s b) i2 o))
    (fun i2 => layerNorm r bw.fwdLN (fun o =>
      layerNorm r bw.attnLN (t b i2) o +
      mha bw.attn sc e train (bm.attnM b) causalMask
        (fun j => layerNorm r bw.attnLN (t b j)) (t b) (t b) i2 o))
    i hinner) a]

-- The block stack preserves agreement of two runs at positions up to `i`.
theorem encodeBlocks_causal {B L N nh d : ℕ} (w : SASRecW N L nh d)
    (train : Bool) (ms : Masks B L nh d)
    (x y : Fin B → Fin L → Fin (N + 1)) (i : Fin L)
    (hxy : ∀ b j, j ≤ i → x b j = y b j) :
    ∀ k (b : Fin B) (j : Fin L), j ≤ i →
      encodeBlocks w train ms x k b j = encodeBlocks w train ms y k b j := by
  intro k
  induction k with
  | zero =>
    intro b j hj
    rw [encodeBlocks_zero, encodeBlocks_zero]
    funext a
    unfold embMasked embWithPos embScaled posBroadcast tlMask lookupEmbedding
    rw [hxy b j hj]
  | succ k ih =>
    intro b j hj
    rw [encodeBlocks_succ, encodeBlocks_succ]
    exact blockStep_causal (w.blocks k) w.scaling w.softexp w.rsqrt train
      (ms.blockM k) (tlMask x) (tlMask y)
      (encodeBlocks w train ms x k) (encodeBlocks w train ms y k) b j
      (fun j2 hj2 => ih b j2 (le_trans hj2 hj))
      (by unfold tlMask; rw [hxy b j hj])

/-- C1: causality of the encoder.  For any two input batches that agree at
all sequence positions `j ≤ i` (for every batch row) and any weight
setting, with dropout disabled, the `log2feats` output at position `i` is
identical for both batches — perturbing the input only at positions
`j > i` never changes the output at position `i`. -/
theorem C1_encoder_causal {B L N nh d : ℕ} (w : SASRecW N L nh d)
    (ms : Masks B L nh d) (x y : Fin B → Fin L → Fin (N + 1)) (i : Fin L)
    (h : ∀ b j, j ≤ i → x b j = y b j) :
    ∀ b, log2feats w false ms x b i = log2feats w false ms y b i := by
  intro b
  unfold log2feats
  rw [encodeBlocks_causal w false ms x y i h w.numBlocks b i le_rfl]

/-- Witness for C1 at a concrete model: the batches `[[1, 1]]` and
`[[1, 2]]` agree at position `0` and differ at position `1 > 0`; the
encoder outputs at position `0` coincide. -/
theorem C1_encoder_causal_witness :
    (∀ b (j : Fin 2), j ≤ (0 : Fin 2) → xOne b j = yOne b j) ∧
    (∀ b, log2feats wOne false msOne xOne b 0 =
      log2feats wOne false msOne yOne b 0) :=
  ⟨by decide, C1_encoder_causal wOne msOne xOne yOne 0 (by decide)⟩

/-- C10: the `user_ids` argument is never read — `forward` (in every
mode) and `predict` return identical values for any two choices of
`user_ids` with all other arguments, weights and masks fixed. -/
theorem C10_user_ids_unused {B Lm K N nh d : ℕ}
    (w : SASRecW N (Lm + 1) nh d) (train : Bool)
    (ms : Masks B (Lm + 1) nh d) (u1 u2 : List ℕ)
    (x p n : Fin B → Fin (Lm + 1) → Fin (N + 1)) (mode : ForwardMode)
    (idx : Fin B → Fin K → Fin (N + 1)) :
    forward w train ms u1 x p n mode = forward w train ms u2 x p n mode ∧
    predict w train ms u1 x idx = predict w train ms u2 x idx :=
  ⟨rfl, rfl⟩

end SASRecV
